import Mathlib

/-!
Verification of the contact-manager core in `task_one.py`.

The Python program is shallowly embedded: dates are triples of naturals with
an explicit validity predicate (mirroring `datetime.date`), strings are Lean
strings, in-place mutation becomes explicit state passing, and code that can
raise a Python exception returns `Except PyErr` (or `Option`).  Each
definition is translated from one function of the source file; comments name
the corresponding lines.
-/

namespace TaskOne

/-- The three exception classes caught by the `input_error` decorator
(`except (KeyError, ValueError, IndexError)`). -/
inductive PyErr where
  | keyError
  | valueError
  | indexError
deriving DecidableEq

/-! ## Characters and digits

`Phone.validate_phone` calls Python's `str.isdigit`, which is true for every
character of Unicode `Numeric_Type` `Digit` or `Decimal` — not only ASCII
`0-9`.  `pyIsDecimalChar` models the decimal-digit (category `Nd`) ranges,
and `pyIsDigitChar` adds the digit-but-not-decimal characters (the
super- and subscript digits).  The common digit ranges are covered: ASCII,
Arabic-Indic, extended Arabic-Indic, Devanagari and fullwidth digits plus
the superscripts and subscripts; remaining scripts' digit blocks behave identically
and are omitted from the table. -/

def isAsciiDigit (c : Char) : Bool :=
  48 ≤ c.toNat && c.toNat ≤ 57

/-- Unicode decimal digits (category `Nd`), as matched by Python's regex
class `\d` and accepted by `int()`. -/
def pyIsDecimalChar (c : Char) : Bool :=
  (48 ≤ c.toNat && c.toNat ≤ 57) ||          -- ASCII 0-9
  (0x660 ≤ c.toNat && c.toNat ≤ 0x669) ||    -- Arabic-Indic
  (0x6F0 ≤ c.toNat && c.toNat ≤ 0x6F9) ||    -- extended Arabic-Indic
  (0x966 ≤ c.toNat && c.toNat ≤ 0x96F) ||    -- Devanagari
  (0xFF10 ≤ c.toNat && c.toNat ≤ 0xFF19)     -- fullwidth

/-- Python's `str.isdigit` on one character: the decimal digits plus the
`Numeric_Type=Digit` characters (super- and subscript digits). -/
def pyIsDigitChar (c : Char) : Bool :=
  pyIsDecimalChar c ||
  c.toNat = 0xB2 || c.toNat = 0xB3 || c.toNat = 0xB9 ||   -- superscript 2 3 1
  c.toNat = 0x2070 ||                                     -- superscript 0
  (0x2074 ≤ c.toNat && c.toNat ≤ 0x2079) ||               -- superscript 4-9
  (0x2080 ≤ c.toNat && c.toNat ≤ 0x2089)                  -- subscript 0-9

/-- Numeric value of a decimal-digit character (junk 0 elsewhere; only used
under a `pyIsDecimalChar`/`isAsciiDigit` guard, as `int()` is only applied
to regex-matched digit groups). -/
def decVal (c : Char) : Nat :=
  if 48 ≤ c.toNat && c.toNat ≤ 57 then c.toNat - 48
  else if 0x660 ≤ c.toNat && c.toNat ≤ 0x669 then c.toNat - 0x660
  else if 0x6F0 ≤ c.toNat && c.toNat ≤ 0x6F9 then c.toNat - 0x6F0
  else if 0x966 ≤ c.toNat && c.toNat ≤ 0x96F then c.toNat - 0x966
  else if 0xFF10 ≤ c.toNat && c.toNat ≤ 0xFF19 then c.toNat - 0xFF10
  else 0

/-- `int()` on a string of decimal digits. -/
def valOf (cs : List Char) : Nat :=
  cs.foldl (fun a c => 10 * a + decVal c) 0

/-! ## Dates

`datetime.date` values: a year/month/day triple that the constructor
validates (`MINYEAR = 1`, `MAXYEAR = 9999`, day within the month). -/

structure Date where
  year : Nat
  month : Nat
  day : Nat
deriving DecidableEq

/-- Gregorian leap-year rule used by `datetime`. -/
def isLeap (y : Nat) : Bool :=
  (y % 4 = 0 && y % 100 ≠ 0) || y % 400 = 0

def daysInMonth (y m : Nat) : Nat :=
  if m = 2 then (if isLeap y then 29 else 28)
  else if m = 4 ∨ m = 6 ∨ m = 9 ∨ m = 11 then 30
  else 31

/-- The validity check performed by the `datetime.date` constructor. -/
def isValidDate (d : Date) : Bool :=
  1 ≤ d.year && d.year ≤ 9999 &&
  1 ≤ d.month && d.month ≤ 12 &&
  1 ≤ d.day && d.day ≤ daysInMonth d.year d.month

/-- `datetime.date(y, m, d)`: `none` models the `ValueError` raised on an
invalid component. -/
def mkDate (y m d : Nat) : Option Date :=
  if isValidDate ⟨y, m, d⟩ then some ⟨y, m, d⟩ else none

/-- `d.replace(year = y)`: rebuilds the date with the constructor's checks,
so it raises (`none`) e.g. for Feb 29 replaced into a non-leap year. -/
def replaceYear (d : Date) (y : Nat) : Option Date :=
  mkDate y d.month d.day

/-- `date.__lt__`: lexicographic comparison of (year, month, day). -/
def dateLt (a b : Date) : Bool :=
  a.year < b.year ||
  (a.year = b.year && (a.month < b.month ||
    (a.month = b.month && a.day < b.day)))

def monthDaysBefore (y : Nat) : Nat → Nat
  | 0 => 0
  | 1 => 0
  | m + 1 => monthDaysBefore y m + daysInMonth y m

/-- `date.toordinal()`: day count in the proleptic Gregorian calendar,
with day 1 = January 1 of year 1.  `(b - a).days = b.toordinal() -
a.toordinal()`. -/
def toOrdinal (d : Date) : Nat :=
  365 * (d.year - 1) +
    ((d.year - 1) / 4 - (d.year - 1) / 100 + (d.year - 1) / 400) +
    monthDaysBefore d.year d.month + d.day

def digitChar (n : Nat) : Char :=
  Char.ofNat (48 + n)

/-- Two-digit zero-padded field (`%m`, `%d`; values are ≤ 99). -/
def pad2 (n : Nat) : List Char :=
  [digitChar (n / 10 % 10), digitChar (n % 10)]

/-- Four-digit zero-padded field (`%Y`, `%04d`; values are ≤ 9999). -/
def pad4 (n : Nat) : List Char :=
  [digitChar (n / 1000 % 10), digitChar (n / 100 % 10),
   digitChar (n / 10 % 10), digitChar (n % 10)]

/-- `d.strftime("%Y.%m.%d")`, with `%Y` zero-padded to width 4 as in the
documented format table. -/
def formatDotted (d : Date) : String :=
  ⟨pad4 d.year ++ '.' :: (pad2 d.month ++ '.' :: pad2 d.day)⟩

/-- `str(d)` = `d.isoformat()`: dashed, zero-padded `YYYY-MM-DD`. -/
def isoFormat (d : Date) : String :=
  ⟨pad4 d.year ++ '-' :: (pad2 d.month ++ '-' :: pad2 d.day)⟩

/-! ## Phone (lines 15-23) -/

structure Phone where
  value : String
deriving DecidableEq

/-- `Phone.validate_phone`: `phone.isdigit() and len(phone) == 10`.
(`isdigit` is false on the empty string, but a length-0 string fails the
length conjunct anyway, so the conjunction is extensionally identical.) -/
def validate_phone (s : String) : Bool :=
  s.data.all pyIsDigitChar && s.length = 10

/-- `Phone.__init__`: raises `ValueError` unless `validate_phone`. -/
def mkPhone (s : String) : Except PyErr Phone :=
  if validate_phone s then .ok ⟨s⟩ else .error .valueError

/-! ## Birthday (lines 25-30)

`Birthday.__init__` runs `datetime.strptime(value, "%Y.%m.%d").date()` and
turns any `ValueError` into its own `ValueError`.  `strptime` compiles the
format to the regex
`(?P<Y>\d\d\d\d)\.(?P<m>1[0-2]|0[1-9]|[1-9])\.(?P<d>3[01]|[12]\d|0[1-9]|[1-9])`,
requires the match to consume the whole input, converts each group with
`int()`, and builds a `datetime` (whose constructor rejects year 0 and
days out of range for the month).  Because the component character classes
never match a dot, matching that regex is equivalent to splitting the input
on dots into exactly three groups and checking each group. -/

/-- Split a character list on `'.'` (every occurrence separates groups,
like `re` matching around the literal dots of the pattern). -/
def splitDots : List Char → List (List Char)
  | [] => [[]]
  | c :: rest =>
    if c = '.' then [] :: splitDots rest
    else
      match splitDots rest with
      | [] => [[c]]
      | g :: gs => (c :: g) :: gs

/-- The `%Y` group: exactly four decimal digits. -/
def yearOk (cs : List Char) : Bool :=
  cs.length = 4 && cs.all pyIsDecimalChar

/-- The `%m` group: regex `1[0-2]|0[1-9]|[1-9]` (ASCII literals). -/
def monthTextOk : List Char → Bool
  | [c] => 49 ≤ c.toNat && c.toNat ≤ 57                       -- [1-9]
  | [c1, c2] =>
    (c1.toNat = 49 && 48 ≤ c2.toNat && c2.toNat ≤ 50) ||      -- 1[0-2]
    (c1.toNat = 48 && 49 ≤ c2.toNat && c2.toNat ≤ 57)         -- 0[1-9]
  | _ => false

/-- The `%d` group: regex `3[01]|[12]\d|0[1-9]|[1-9]` (note the second
character of `[12]\d` is the Unicode class `\d`). -/
def dayTextOk : List Char → Bool
  | [c] => 49 ≤ c.toNat && c.toNat ≤ 57                       -- [1-9]
  | [c1, c2] =>
    (c1.toNat = 51 && (c2.toNat = 48 || c2.toNat = 49)) ||    -- 3[01]
    ((c1.toNat = 49 || c1.toNat = 50) && pyIsDecimalChar c2) ||
    (c1.toNat = 48 && 49 ≤ c2.toNat && c2.toNat ≤ 57)         -- 0[1-9]
  | _ => false

/-- Inverse of `splitDots`: interpose a dot between the groups. -/
def joinDots : List (List Char) → List Char
  | [] => []
  | [g] => g
  | g :: gs => g ++ '.' :: joinDots gs

/-- `datetime.strptime(s, "%Y.%m.%d").date()`: `none` models the
`ValueError` on a failed match or an invalid calendar date. -/
def parse_birthday (s : String) : Option Date :=
  match splitDots s.data with
  | [ys, ms, ds] =>
    if yearOk ys && monthTextOk ms && dayTextOk ds then
      mkDate (valOf ys) (valOf ms) (valOf ds)
    else none
  | _ => none

/-- `Birthday.__init__` at the exception level: a parse failure is a
`ValueError` (re-raised with the fixed message, lines 29-30). -/
def mkBirthday (s : String) : Except PyErr Date :=
  match parse_birthday s with
  | some d => .ok d
  | none => .error .valueError

/-! ## Record (lines 32-53) -/

structure Record where
  name : String
  phones : List Phone
  birthday : Option Date
deriving DecidableEq

/-- `Record.__init__`. -/
def Record.new (name : String) : Record :=
  ⟨name, [], none⟩

/-- `Record.add_phone`: `self.phones.append(Phone(phone))` — `Phone(phone)`
is evaluated (and may raise) before the append, so on error the record is
untouched. -/
def Record.addPhone (r : Record) (phone : String) : Except PyErr Record :=
  (mkPhone phone).map fun p => { r with phones := r.phones ++ [p] }

/-- `Record.edit_phone` acting on the phone list: replace the first phone
whose `value` equals `old_phone` by `Phone(new_phone)`; `Phone(new_phone)`
is evaluated before the assignment, so on error the list is untouched; if
no phone matches, the loop falls through and nothing happens. -/
def editPhones (phones : List Phone) (old_phone new_phone : String) :
    Except PyErr (List Phone) :=
  match phones with
  | [] => .ok []
  | p :: rest =>
    if p.value = old_phone then (mkPhone new_phone).map (· :: rest)
    else (editPhones rest old_phone new_phone).map (p :: ·)

def Record.editPhone (r : Record) (old_phone new_phone : String) :
    Except PyErr Record :=
  (editPhones r.phones old_phone new_phone).map
    fun ps => { r with phones := ps }

/-- `Record.add_birthday`: `self.birthday = Birthday(birthday)` —
`Birthday(...)` raises before the assignment on bad input. -/
def Record.addBirthday (r : Record) (birthday : String) :
    Except PyErr Record :=
  (mkBirthday birthday).map fun d => { r with birthday := some d }

def joinComma (l : List String) : String :=
  String.intercalate ", " l

/-- `Record.__str__` (lines 50-53); the birthday prints through
`Field.__str__` = `str(self.value)` = `date.isoformat()`. -/
def Record.render (r : Record) : String :=
  "Contact name: " ++ r.name ++ ", phones: " ++
    joinComma (r.phones.map Phone.value) ++ ", birthday: " ++
    (match r.birthday with
     | some d => isoFormat d
     | none => "No birthday")

/-! ## AddressBook (lines 55-78)

`AddressBook` is a `UserDict`; `self.data` is a `dict`, modelled as an
association list in insertion order with unique keys.  Assigning to an
existing key updates the value in place (keeping the position); assigning
a fresh key appends. -/

abbrev Book := List (String × Record)

/-- `self.data[k] = v`. -/
def dictSet (book : Book) (k : String) (v : Record) : Book :=
  match book with
  | [] => [(k, v)]
  | (k', v') :: rest =>
    if k' = k then (k, v) :: rest else (k', v') :: dictSet rest k v

/-- `self.data.get(k)`. -/
def dictGet (book : Book) (k : String) : Option Record :=
  match book with
  | [] => none
  | (k', v') :: rest => if k' = k then some v' else dictGet rest k

/-- `k in self.data`. -/
def dictContains (book : Book) (k : String) : Bool :=
  match book with
  | [] => false
  | (k', _) :: rest => k' = k || dictContains rest k

/-- `AddressBook.add_record` (lines 56-57): unconditional
`self.data[record.name.value] = record`. -/
def add_record (book : Book) (r : Record) : Book :=
  dictSet book r.name r

/-- `AddressBook.get_upcoming_birthdays` (lines 62-78).  `today` is
`datetime.today().date()` — ambient state, made an explicit parameter.
`record.birthday.value.replace(year=today.year)` can raise `ValueError`
(e.g. Feb 29 into a non-leap year), which propagates out of the method;
the `.error` constructor models that.  Records are visited in the dict's
insertion order and matching entries appended in that order. -/
def get_upcoming_birthdays (book : Book) (today : Date) (days : Int := 7) :
    Except PyErr (List (String × String)) :=
  match book with
  | [] => .ok []
  | (_, record) :: rest =>
    match record.birthday with
    | none => get_upcoming_birthdays rest today days
    | some b =>
      match replaceYear b today.year with
      | none => .error .valueError
      | some birthday_this_year =>
        match
          (if dateLt birthday_this_year today then
            replaceYear birthday_this_year (today.year + 1)
          else some birthday_this_year) with
        | none => .error .valueError
        | some rolled =>
          let days_until_birthday : Int :=
            (toOrdinal rolled : Int) - (toOrdinal today : Int)
          match get_upcoming_birthdays rest today days with
          | .error e => .error e
          | .ok l =>
            .ok (if 0 ≤ days_until_birthday ∧ days_until_birthday ≤ days then
                  (record.name, formatDotted rolled) :: l
                 else l)

/-! ## Handlers and the `input_error` decorator (lines 91-179)

A handler takes the argument list and the book and either returns a display
string or raises one of the three caught exceptions; in both cases the book
it leaves behind is made explicit.  Every mutation in the source happens
after the expression that can raise (see the `Record` operations above), so
an erroring handler hands back the book it received. -/

/-- The message table of `input_error` (lines 91-102). -/
def input_error_msg : PyErr → String
  | .keyError => "This contact does not exist."
  | .valueError => "Give me name and phone please."
  | .indexError => "Enter user name."

/-- The decorated handler: the wrapper catches the three exception kinds
and maps them to their fixed messages, so the call always returns a string
(the REPL loop never crashes). -/
def runDecorated (h : List String → Book → Except PyErr String × Book)
    (args : List String) (book : Book) : String × Book :=
  match h args book with
  | (.ok s, b) => (s, b)
  | (.error e, b) => (input_error_msg e, b)

/-- `add_contact` (lines 104-115): `raise ValueError` when fewer than two
arguments; append the phone to an existing record, else create a record
with that phone and `add_record` it.  In both branches `Phone(phone)` can
raise before any mutation. -/
def add_contact (args : List String) (book : Book) :
    Except PyErr String × Book :=
  match args with
  | name :: phone :: _ =>
    if dictContains book name then
      match (dictGet book name).getD (Record.new name) |>.addPhone phone with
      | .ok r' => (.ok ("Contact " ++ name ++ " added with phone number " ++
          phone ++ "."), dictSet book name r')
      | .error e => (.error e, book)
    else
      match (Record.new name).addPhone phone with
      | .ok r' => (.ok ("Contact " ++ name ++ " added with phone number " ++
          phone ++ "."), add_record book r')
      | .error e => (.error e, book)
  | _ => (.error .valueError, book)

/-- `change_contact` (lines 117-127): `raise ValueError` when fewer than
three arguments, `raise KeyError` when the name is absent, otherwise
`edit_phone` (which may itself raise `ValueError` on the new phone). -/
def change_contact (args : List String) (book : Book) :
    Except PyErr String × Book :=
  match args with
  | name :: old_phone :: new_phone :: _ =>
    match dictGet book name with
    | some r =>
      match r.editPhone old_phone new_phone with
      | .ok r' => (.ok ("Phone number for " ++ name ++ " updated to " ++
          new_phone ++ "."), dictSet book name r')
      | .error e => (.error e, book)
    | none => (.error .keyError, book)
  | _ => (.error .valueError, book)

/-- `show_phone` (lines 129-139): `raise IndexError` on no arguments,
`raise KeyError` when the name is absent. -/
def show_phone (args : List String) (book : Book) :
    Except PyErr String × Book :=
  match args with
  | [] => (.error .indexError, book)
  | name :: _ =>
    match dictGet book name with
    | some r => (.ok (name ++ "'s phone numbers are: " ++
        joinComma (r.phones.map Phone.value) ++ "."), book)
    | none => (.error .keyError, book)

/-- `add_birthday` handler (lines 148-158). -/
def add_birthday_cmd (args : List String) (book : Book) :
    Except PyErr String × Book :=
  match args with
  | name :: birthday :: _ =>
    match dictGet book name with
    | some r =>
      match r.addBirthday birthday with
      | .ok r' => (.ok ("Birthday for " ++ name ++ " added: " ++ birthday),
          dictSet book name r')
      | .error e => (.error e, book)
    | none => (.error .keyError, book)
  | _ => (.error .valueError, book)

/-- `show_birthday` handler (lines 160-171); an existing birthday is shown
with `strftime("%Y.%m.%d")`. -/
def show_birthday_cmd (args : List String) (book : Book) :
    Except PyErr String × Book :=
  match args with
  | [] => (.error .indexError, book)
  | name :: _ =>
    match dictGet book name with
    | some r =>
      match r.birthday with
      | some d => (.ok (name ++ "'s birthday is on " ++
          formatDotted d ++ "."), book)
      | none => (.ok ("No birthday set for " ++ name ++ "."), book)
    | none => (.error .keyError, book)

def isError {α : Type} (e : Except PyErr α) : Bool :=
  match e with
  | .error _ => true
  | .ok _ => false

/-! ## Spec-side definitions

These two definitions follow the words of the specification (§4.3), to be
compared with the embedded `get_upcoming_birthdays`: the birthday's date in
the current year, rolled forward one year when it has already passed, and
the pairs collected in the book's iteration order whenever the day-count
delta lies in `[0, days]`. -/

/-- From the spec: "compute that birthday's date in the current year; if
that date has already passed this year, roll forward one year". -/
def rolledSpec (b today : Date) : Option Date :=
  match replaceYear b today.year with
  | none => none
  | some x => if dateLt x today then replaceYear x (today.year + 1) else some x

/-- From the spec: the (name, `YYYY.MM.DD` text) pairs of the records whose
rolled birthday is at most `days` days away, in iteration order. -/
def upcomingSpec (book : Book) (today : Date) (days : Int) :
    List (String × String) :=
  book.filterMap fun nr =>
    match nr.2.birthday with
    | none => none
    | some b =>
      match rolledSpec b today with
      | none => none
      | some d =>
        if 0 ≤ (toOrdinal d : Int) - (toOrdinal today : Int) ∧
            (toOrdinal d : Int) - (toOrdinal today : Int) ≤ days then
          some (nr.2.name, formatDotted d)
        else none

/-! ## Helper lemmas -/

lemma filter_key_eq_nil (l : Book) (n : String)
    (h : n ∉ l.map Prod.fst) : l.filter (fun e => e.1 == n) = [] := by
  induction l with
  | nil => rfl
  | cons hd tl ih =>
    simp only [List.map_cons, List.mem_cons] at h
    push_neg at h
    simp [List.filter_cons, ih h.2, Ne.symm h.1]

lemma edit_phones_not_found (phones : List Phone)
    (old_phone new_phone : String)
    (h : old_phone ∉ phones.map Phone.value) :
    editPhones phones old_phone new_phone = .ok phones := by
  induction phones with
  | nil => rfl
  | cons p rest ih =>
    simp only [List.map_cons, List.mem_cons] at h
    push_neg at h
    simp [editPhones, Ne.symm h.1, ih h.2, Except.map]

lemma edit_phones_found (pre post : List Phone) (p p' : Phone)
    (old_phone new_phone : String)
    (hp : p.value = old_phone)
    (hpre : old_phone ∉ pre.map Phone.value)
    (hnew : mkPhone new_phone = .ok p') :
    editPhones (pre ++ p :: post) old_phone new_phone =
      .ok (pre ++ p' :: post) := by
  induction pre with
  | nil => simp [editPhones, hp, hnew, Except.map]
  | cons q pre' ih =>
    simp only [List.map_cons, List.mem_cons] at hpre
    push_neg at hpre
    simp [editPhones, Ne.symm hpre.1, ih hpre.2, Except.map]

/-! ## Claims -/

/-- C6: `add_record` is an unconditional overwrite: re-adding a record
whose name is already a key leaves exactly one entry for that name in the
book, equal to the new record (no merge of the old record's data). -/
theorem add_record_overwrites (book : Book) (r : Record)
    (hnd : (book.map Prod.fst).Nodup)
    (hmem : r.name ∈ book.map Prod.fst) :
    (add_record book r).filter (fun e => e.1 == r.name) = [(r.name, r)] := by
  induction book with
  | nil => simp at hmem
  | cons hd tl ih =>
    simp only [List.map_cons, List.nodup_cons] at hnd
    simp only [List.map_cons, List.mem_cons] at hmem
    by_cases hk : hd.1 = r.name
    · have : tl.filter (fun e => e.1 == r.name) = [] :=
        filter_key_eq_nil tl r.name (by rw [← hk]; exact hnd.1)
      simp [add_record, dictSet, hk, List.filter_cons, this]
    · have hmem' : r.name ∈ tl.map Prod.fst := by
        rcases hmem with h | h
        · exact absurd h.symm hk
        · exact h
      have := ih hnd.2 hmem'
      simp only [add_record, dictSet, hk, if_false]
      simpa [List.filter_cons, hk] using this

/-- C6 witness: adding `"Alice"` twice keeps exactly the second record. -/
theorem add_record_overwrites_example :
    (add_record [("Alice", ⟨"Alice", [⟨"1111111111"⟩], none⟩)]
        ⟨"Alice", [⟨"2222222222"⟩], none⟩).filter
      (fun e => e.1 == "Alice") =
      [("Alice", ⟨"Alice", [⟨"2222222222"⟩], none⟩)] :=
  add_record_overwrites [("Alice", ⟨"Alice", [⟨"1111111111"⟩], none⟩)]
    ⟨"Alice", [⟨"2222222222"⟩], none⟩ (by simp) (by simp)

/-- C5: `edit_phone` replaces the first phone equal to `old` with a
freshly validated Phone for `new`, preserving its position and the other
entries; when no phone matches, the record is returned entirely unchanged
(silent no-op). -/
theorem edit_phone_first_match_or_noop (r : Record)
    (old_phone new_phone : String) :
    (old_phone ∉ r.phones.map Phone.value →
      r.editPhone old_phone new_phone = .ok r) ∧
    (∀ pre post p p', r.phones = pre ++ p :: post →
      p.value = old_phone → old_phone ∉ pre.map Phone.value →
      mkPhone new_phone = .ok p' →
      r.editPhone old_phone new_phone =
        .ok { r with phones := pre ++ p' :: post }) := by
  constructor
  · intro h
    simp [Record.editPhone, edit_phones_not_found r.phones _ _ h, Except.map]
  · intro pre post p p' hsplit hp hpre hnew
    simp [Record.editPhone, hsplit,
      edit_phones_found pre post p p' _ _ hp hpre hnew, Except.map]

/-- C5 witness: the spec's example `["1111111111","2222222222"]`, editing
the first number to `"3333333333"`. -/
theorem edit_phone_example :
    (Record.mk "Bob" [⟨"1111111111"⟩, ⟨"2222222222"⟩] none).editPhone
        "1111111111" "3333333333" =
      .ok (Record.mk "Bob" [⟨"3333333333"⟩, ⟨"2222222222"⟩] none) :=
  (edit_phone_first_match_or_noop
      (Record.mk "Bob" [⟨"1111111111"⟩, ⟨"2222222222"⟩] none)
      "1111111111" "3333333333").2
    [] [⟨"2222222222"⟩] ⟨"1111111111"⟩ ⟨"3333333333"⟩ rfl rfl (by simp) rfl

/-- C10: the one-line record summary renders a present birthday in the
default `str(date)` form — ISO dashed `YYYY-MM-DD`, which differs from the
dotted `YYYY.MM.DD` input form — and renders an absent birthday as the
literal `"No birthday"`. -/
theorem render_record_birthday_iso (r : Record) (d : Date) :
    (r.birthday = some d →
      r.render = "Contact name: " ++ r.name ++ ", phones: " ++
        joinComma (r.phones.map Phone.value) ++ ", birthday: " ++
        isoFormat d ∧ isoFormat d ≠ formatDotted d) ∧
    (r.birthday = none →
      r.render = "Contact name: " ++ r.name ++ ", phones: " ++
        joinComma (r.phones.map Phone.value) ++ ", birthday: " ++
        "No birthday") := by
  constructor
  · intro h
    refine ⟨by simp [Record.render, h], ?_⟩
    intro heq
    have hl := congrArg String.data heq
    simp only [isoFormat, formatDotted] at hl
    have := List.append_cancel_left hl
    simp at this
  · intro h
    simp [Record.render, h]

/-- C10 witness at a concrete record. -/
theorem render_record_birthday_example :
    (Record.mk "Bob" [⟨"1234567890"⟩] (some ⟨1999, 12, 5⟩)).render =
      "Contact name: Bob, phones: 1234567890, birthday: 1999-12-05" := by
  have := (render_record_birthday_iso
      (Record.mk "Bob" [⟨"1234567890"⟩] (some ⟨1999, 12, 5⟩)) ⟨1999, 12, 5⟩).1
    rfl
  exact this.1

/-- C3 counterexample: `str.isdigit` is not "decimal digits 0-9": a string
of ten SUPERSCRIPT TWO characters is accepted by the Phone constructor even
though none of its characters is an ASCII digit. -/
theorem phone_accepts_superscript_digits :
    mkPhone "²²²²²²²²²²" = .ok ⟨"²²²²²²²²²²"⟩ ∧
    ("²²²²²²²²²²".data.all isAsciiDigit) = false := by
  constructor <;> rfl

/-- C3 amended: Phone construction succeeds exactly when the input has
exactly 10 characters and every character satisfies Python's
`str.isdigit` (which also accepts non-ASCII digit characters); on success
the stored rendered form is the input string itself. -/
theorem phone_validation_characterization (s : String) :
    (mkPhone s = .ok ⟨s⟩ ↔
      s.length = 10 ∧ s.data.all pyIsDigitChar = true) ∧
    (∀ p, mkPhone s = .ok p → p.value = s) := by
  constructor
  · constructor
    · intro h
      by_cases hv : validate_phone s
      · simp only [validate_phone, Bool.and_eq_true, decide_eq_true_eq] at hv
        exact ⟨hv.2, hv.1⟩
      · simp [mkPhone, hv] at h
    · intro ⟨h1, h2⟩
      have hv : validate_phone s = true := by
        simp [validate_phone, h1, h2]
      simp [mkPhone, hv]
  · intro p h
    by_cases hv : validate_phone s
    · simp only [mkPhone, hv, if_true, Except.ok.injEq] at h
      rw [← h]
    · simp [mkPhone, hv] at h

/-- C3 witness: a concrete all-ASCII 10-digit phone is accepted. -/
theorem phone_validation_example : mkPhone "0123456789" = .ok ⟨"0123456789"⟩ :=
  (phone_validation_characterization "0123456789").1.mpr (by decide)

/-- C7: every handler failure is recovered at the dispatch boundary and
mapped to the fixed message of its kind, regardless of the handler: too few
positional arguments or a Phone/Birthday validation failure give
`"Give me name and phone please."`, a name absent from the book gives
`"This contact does not exist."`, and a command called with no name
argument gives `"Enter user name."`; in each case the decorated call
returns normally (the loop never crashes). -/
theorem input_error_mapping :
    (∀ args book, args.length < 2 →
      runDecorated add_contact args book =
        ("Give me name and phone please.", book)) ∧
    (∀ name phone rest book, validate_phone phone = false →
      runDecorated add_contact (name :: phone :: rest) book =
        ("Give me name and phone please.", book)) ∧
    (∀ args book, args.length < 3 →
      runDecorated change_contact args book =
        ("Give me name and phone please.", book)) ∧
    (∀ name p1 p2 rest book, dictGet book name = none →
      runDecorated change_contact (name :: p1 :: p2 :: rest) book =
        ("This contact does not exist.", book)) ∧
    (∀ book, runDecorated show_phone [] book = ("Enter user name.", book)) ∧
    (∀ book, runDecorated show_birthday_cmd [] book =
      ("Enter user name.", book)) ∧
    (∀ name rest book, dictGet book name = none →
      runDecorated show_phone (name :: rest) book =
        ("This contact does not exist.", book)) ∧
    (∀ args book, args.length < 2 →
      runDecorated add_birthday_cmd args book =
        ("Give me name and phone please.", book)) ∧
    (∀ name bd rest book r, dictGet book name = some r →
      parse_birthday bd = none →
      runDecorated add_birthday_cmd (name :: bd :: rest) book =
        ("Give me name and phone please.", book)) := by
  refine ⟨?_, ?_, ?_, ?_, ?_, ?_, ?_, ?_, ?_⟩
  · intro args book h
    match args with
    | [] => rfl
    | [a] => rfl
    | a :: b :: rest => simp at h; omega
  · intro name phone rest book h
    have hp : mkPhone phone = .error .valueError := by simp [mkPhone, h]
    by_cases hc : dictContains book name = true
    · simp [runDecorated, add_contact, hc, Record.addPhone, hp, Except.map,
        input_error_msg]
    · simp [runDecorated, add_contact, hc, Record.addPhone, hp, Except.map,
        input_error_msg]
  · intro args book h
    match args with
    | [] => rfl
    | [a] => rfl
    | [a, b] => rfl
    | a :: b :: c :: rest => simp at h; omega
  · intro name p1 p2 rest book h
    simp [runDecorated, change_contact, h, input_error_msg]
  · intro book
    rfl
  · intro book
    rfl
  · intro name rest book h
    simp [runDecorated, show_phone, h, input_error_msg]
  · intro args book h
    match args with
    | [] => rfl
    | [a] => rfl
    | a :: b :: rest => simp at h; omega
  · intro name bd rest book r h hbd
    have hb : mkBirthday bd = .error .valueError := by simp [mkBirthday, hbd]
    simp [runDecorated, add_birthday_cmd, h, Record.addBirthday, hb,
      Except.map, input_error_msg]

/-- C7 witness: a concrete too-few-arguments `add` call. -/
theorem input_error_mapping_example :
    runDecorated add_contact ["onlyname"] [] =
      ("Give me name and phone please.", []) :=
  input_error_mapping.1 ["onlyname"] [] (by decide)

/-- C9: whenever a handler invocation fails (and so surfaces one of the
mapped failure messages), the AddressBook it hands back is exactly the one
it received: no record added, no phone appended or replaced, no birthday
set.  In the source every mutation statement evaluates its raising
subexpression (`Phone(...)`, `Birthday(...)`, the length/lookup checks)
before the mutation itself, so a failing call never gets to mutate. -/
theorem handler_error_atomicity (args : List String) (book : Book) :
    (isError (add_contact args book).1 = true →
      (add_contact args book).2 = book) ∧
    (isError (change_contact args book).1 = true →
      (change_contact args book).2 = book) ∧
    (isError (add_birthday_cmd args book).1 = true →
      (add_birthday_cmd args book).2 = book) ∧
    (isError (show_phone args book).1 = true →
      (show_phone args book).2 = book) ∧
    (isError (show_birthday_cmd args book).1 = true →
      (show_birthday_cmd args book).2 = book) := by
  refine ⟨?_, ?_, ?_, ?_, ?_⟩
  · intro h
    match args with
    | [] => rfl
    | [a] => rfl
    | name :: phone :: rest =>
      simp only [add_contact] at h ⊢
      split <;> (try split) <;> simp_all [isError]
  · intro h
    match args with
    | [] => rfl
    | [a] => rfl
    | [a, b] => rfl
    | name :: p1 :: p2 :: rest =>
      simp only [change_contact] at h ⊢
      split <;> (try split) <;> simp_all [isError]
  · intro h
    match args with
    | [] => rfl
    | [a] => rfl
    | name :: bd :: rest =>
      simp only [add_birthday_cmd] at h ⊢
      split <;> (try split) <;> simp_all [isError]
  · intro h
    match args with
    | [] => rfl
    | name :: rest =>
      simp only [show_phone] at h ⊢
      split <;> simp_all [isError]
  · intro h
    match args with
    | [] => rfl
    | name :: rest =>
      simp only [show_birthday_cmd] at h ⊢
      split <;> (try split) <;> simp_all [isError]

/-- C9 witness: a failing `add` (invalid phone) leaves a concrete book
unchanged. -/
theorem handler_error_atomicity_example :
    (add_contact ["Bob", "123"] [("Ann", Record.new "Ann")]).2 =
      [("Ann", Record.new "Ann")] :=
  (handler_error_atomicity ["Bob", "123"] [("Ann", Record.new "Ann")]).1
    (by decide)

/-- C1: whenever `get_upcoming_birthdays` returns (does not raise), its
result is exactly the spec-side list: for each record with a birthday, the
pair (record name, rolled birthday formatted `YYYY.MM.DD`) appears
precisely when the day-count delta from `today` to the rolled date lies in
`[0, days]` (delta 0 included), and the pairs come in the book's iteration
order, not sorted by date. -/
theorem upcoming_birthdays_ok_eq_spec (book : Book) (today : Date)
    (days : Int) (l : List (String × String))
    (h : get_upcoming_birthdays book today days = .ok l) :
    l = upcomingSpec book today days := by
  induction book generalizing l with
  | nil =>
    simp only [get_upcoming_birthdays, Except.ok.injEq] at h
    simp [upcomingSpec, ← h]
  | cons nr rest ih =>
    obtain ⟨n, record⟩ := nr
    simp only [get_upcoming_birthdays] at h
    simp only [upcomingSpec, List.filterMap_cons]
    cases hb : record.birthday with
    | none =>
      simp only [hb] at h
      exact ih l h
    | some b =>
      simp only [hb] at h
      simp only [rolledSpec]
      cases hrep : replaceYear b today.year with
      | none =>
        simp only [hrep] at h
        exact absurd h (by simp)
      | some bty =>
        simp only [hrep] at h
        simp only [hrep]
        by_cases hlt : dateLt bty today = true
        · rw [if_pos hlt] at h
          rw [if_pos hlt]
          cases hroll : replaceYear bty (today.year + 1) with
          | none =>
            simp only [hroll] at h
            exact absurd h (by simp)
          | some rolled =>
            simp only [hroll] at h
            simp only [hroll]
            cases htl : get_upcoming_birthdays rest today days with
            | error e =>
              simp only [htl] at h
              exact absurd h (by simp)
            | ok tl =>
              simp only [htl, Except.ok.injEq] at h
              subst h
              simp only [ih tl htl]
              by_cases hc : 0 ≤ (toOrdinal rolled : Int) - (toOrdinal today : Int) ∧
                  (toOrdinal rolled : Int) - (toOrdinal today : Int) ≤ days
              · rw [if_pos hc, if_pos hc]
                simp [upcomingSpec, rolledSpec]
              · rw [if_neg hc, if_neg hc]
                simp [upcomingSpec, rolledSpec]
        · rw [if_neg hlt] at h
          rw [if_neg hlt]
          cases htl : get_upcoming_birthdays rest today days with
          | error e =>
            simp only [htl] at h
            exact absurd h (by simp)
          | ok tl =>
            simp only [htl, Except.ok.injEq] at h
            subst h
            simp only [ih tl htl]
            by_cases hc : 0 ≤ (toOrdinal bty : Int) - (toOrdinal today : Int) ∧
                (toOrdinal bty : Int) - (toOrdinal today : Int) ≤ days
            · rw [if_pos hc, if_pos hc]
              simp [upcomingSpec, rolledSpec]
            · rw [if_neg hc, if_neg hc]
              simp [upcomingSpec, rolledSpec]

/-- C1 witness: a birthday exactly 3 days from "today" is reported inside
a 7-day window with its rolled date, in book order. -/
theorem upcoming_birthdays_ok_eq_spec_example :
    upcomingSpec [("Alice", ⟨"Alice", [], some ⟨1990, 6, 4⟩⟩)]
        ⟨2024, 6, 1⟩ 7 = [("Alice", "2024.06.04")] :=
  (upcoming_birthdays_ok_eq_spec
      [("Alice", ⟨"Alice", [], some ⟨1990, 6, 4⟩⟩)] ⟨2024, 6, 1⟩ 7
      [("Alice", "2024.06.04")] rfl).symm

/-- C2 counterexample: the claim that the rolled-birthday computation
succeeds for every stored date fails at a February 29 birthday: with
today = 2023-01-01 (a non-leap year), `date.replace(year=2023)` raises
`ValueError` and `get_upcoming_birthdays` propagates it instead of
returning a result. -/
theorem upcoming_birthdays_feb29_raises :
    get_upcoming_birthdays [("Alice", ⟨"Alice", [], some ⟨2000, 2, 29⟩⟩)]
      ⟨2023, 1, 1⟩ 7 = .error .valueError := rfl

lemma daysInMonth_indep (y y' m : Nat) (h : m ≠ 2) :
    daysInMonth y m = daysInMonth y' m := by
  simp [daysInMonth, h]

lemma daysInMonth_feb (y : Nat) :
    28 ≤ daysInMonth y 2 ∧ daysInMonth y 2 ≤ 29 := by
  by_cases h : isLeap y = true <;> simp [daysInMonth, h]

lemma mkDate_isSome_valid (y m d : Nat) (x : Date)
    (h : mkDate y m d = some x) : isValidDate ⟨y, m, d⟩ = true := by
  by_cases hv : isValidDate ⟨y, m, d⟩ = true
  · exact hv
  · simp [mkDate, hv] at h

lemma replaceYear_some (b : Date) (y : Nat)
    (hb : isValidDate b = true)
    (hnf : ¬(b.month = 2 ∧ b.day = 29))
    (hy1 : 1 ≤ y) (hy2 : y ≤ 9999) :
    replaceYear b y = some ⟨y, b.month, b.day⟩ := by
  simp only [isValidDate, Bool.and_eq_true, decide_eq_true_eq] at hb
  obtain ⟨⟨⟨⟨⟨_, _⟩, hm1⟩, hm2⟩, hd1⟩, hd2⟩ := hb
  have hdays : b.day ≤ daysInMonth y b.month := by
    by_cases hm : b.month = 2
    · rw [hm]
      rw [hm] at hd2
      have h1 := daysInMonth_feb b.year
      have h2 := daysInMonth_feb y
      have hne : b.day ≠ 29 := fun hc => hnf ⟨hm, hc⟩
      omega
    · rw [daysInMonth_indep y b.year b.month hm]
      exact hd2
  simp only [replaceYear, mkDate, isValidDate]
  rw [if_pos]
  simp only [Bool.and_eq_true, decide_eq_true_eq]
  exact ⟨⟨⟨⟨⟨hy1, hy2⟩, hm1⟩, hm2⟩, hd1⟩, hdays⟩

/-- C2 amended: the rolled-birthday computation succeeds for every stored
valid calendar date other than February 29 (for any reference date with
year at most 9998); a February 29 birthday can make it raise, since
`date.replace` rejects Feb 29 in a non-leap target year and the year after
a leap year is never leap. -/
theorem upcoming_birthdays_total_no_feb29 (book : Book) (today : Date)
    (days : Int)
    (ht : isValidDate today = true) (hy : today.year ≤ 9998)
    (hbds : ∀ p ∈ book, ∀ b, p.2.birthday = some b →
      isValidDate b = true ∧ ¬(b.month = 2 ∧ b.day = 29)) :
    ∃ l, get_upcoming_birthdays book today days = .ok l := by
  have hty : 1 ≤ today.year ∧ today.year ≤ 9999 := by
    simp only [isValidDate, Bool.and_eq_true, decide_eq_true_eq] at ht
    omega
  induction book with
  | nil => exact ⟨[], rfl⟩
  | cons nr rest ih =>
    obtain ⟨n, record⟩ := nr
    obtain ⟨tl, htl⟩ := ih fun p hp => hbds p (List.mem_cons_of_mem _ hp)
    cases hb : record.birthday with
    | none =>
      simp only [get_upcoming_birthdays, hb]
      exact ⟨tl, htl⟩
    | some b =>
      have hbprops := hbds (n, record) (List.mem_cons_self _ _) b hb
      have h1 : replaceYear b today.year =
          some ⟨today.year, b.month, b.day⟩ :=
        replaceYear_some b today.year hbprops.1 hbprops.2 hty.1 hty.2
      simp only [get_upcoming_birthdays, hb, h1]
      by_cases hlt : dateLt ⟨today.year, b.month, b.day⟩ today = true
      · rw [if_pos hlt]
        have hvalid1 : isValidDate ⟨today.year, b.month, b.day⟩ = true :=
          mkDate_isSome_valid _ _ _ _ h1
        have h2 : replaceYear ⟨today.year, b.month, b.day⟩
            (today.year + 1) = some ⟨today.year + 1, b.month, b.day⟩ :=
          replaceYear_some ⟨today.year, b.month, b.day⟩ (today.year + 1)
            hvalid1 (by simpa using hbprops.2) (by omega) (by omega)
        simp only [h2, htl]
        exact ⟨_, rfl⟩
      · rw [if_neg hlt]
        simp only [htl]
        exact ⟨_, rfl⟩

/-- C2 amended witness: a December 29 birthday rolls into the next year
without raising. -/
theorem upcoming_birthdays_total_example :
    ∃ l, get_upcoming_birthdays
      [("Alice", ⟨"Alice", [], some ⟨1990, 2, 10⟩⟩)] ⟨2024, 12, 29⟩ 45 =
        .ok l :=
  upcoming_birthdays_total_no_feb29
    [("Alice", ⟨"Alice", [], some ⟨1990, 2, 10⟩⟩)] ⟨2024, 12, 29⟩ 45
    (by decide) (by decide)
    (by
      intro p hp b hbb
      simp only [List.mem_singleton] at hp
      subst hp
      simp only at hbb
      cases hbb
      exact ⟨by decide, by decide⟩)

lemma splitDots_ne_nil (l : List Char) : splitDots l ≠ [] := by
  cases l with
  | nil => simp [splitDots]
  | cons c rest =>
    simp only [splitDots]
    by_cases h : c = '.'
    · simp [h]
    · rw [if_neg h]
      cases hsp : splitDots rest <;> simp

lemma splitDots_no_dot {l : List Char} (h : '.' ∉ l) : splitDots l = [l] := by
  induction l with
  | nil => rfl
  | cons c rest ih =>
    simp only [List.mem_cons] at h
    push_neg at h
    simp only [splitDots, if_neg (Ne.symm h.1), ih h.2]

lemma splitDots_append (a r : List Char) (h : '.' ∉ a) :
    splitDots (a ++ '.' :: r) = a :: splitDots r := by
  induction a with
  | nil => simp [splitDots]
  | cons c rest ih =>
    simp only [List.mem_cons] at h
    push_neg at h
    simp only [List.cons_append, splitDots, if_neg (Ne.symm h.1),
      List.append_eq, ih h.2]

lemma joinDots_splitDots (l : List Char) : joinDots (splitDots l) = l := by
  induction l with
  | nil => rfl
  | cons c rest ih =>
    by_cases h : c = '.'
    · subst h
      simp only [splitDots, if_pos rfl]
      cases hsp : splitDots rest with
      | nil => exact absurd hsp (splitDots_ne_nil rest)
      | cons g gs =>
        rw [hsp] at ih
        simp [joinDots, ih]
    · simp only [splitDots, if_neg h]
      cases hsp : splitDots rest with
      | nil => exact absurd hsp (splitDots_ne_nil rest)
      | cons g gs =>
        rw [hsp] at ih
        cases gs with
        | nil =>
          simp only [joinDots] at ih ⊢
          rw [ih]
        | cons g2 gs2 =>
          simp only [joinDots] at ih ⊢
          rw [List.cons_append, ih]

lemma yearOk_no_dot {cs : List Char} (h : yearOk cs = true) : '.' ∉ cs := by
  simp only [yearOk, Bool.and_eq_true, List.all_eq_true] at h
  intro hm
  exact absurd (h.2 '.' hm) (by decide)

lemma monthTextOk_no_dot {cs : List Char} (h : monthTextOk cs = true) :
    '.' ∉ cs := by
  have hdot : ('.' : Char).toNat = 46 := rfl
  rcases cs with _ | ⟨c1, _ | ⟨c2, _ | ⟨c3, t⟩⟩⟩
  · simp
  · simp only [monthTextOk, Bool.and_eq_true, decide_eq_true_eq] at h
    simp only [List.mem_singleton]
    intro he
    rw [← he] at h
    omega
  · simp only [monthTextOk, Bool.or_eq_true, Bool.and_eq_true,
      decide_eq_true_eq] at h
    intro hm
    simp only [List.mem_cons, List.not_mem_nil, or_false] at hm
    rcases hm with he | he <;> rw [← he] at h <;> omega
  · simp [monthTextOk] at h

lemma dayTextOk_no_dot {cs : List Char} (h : dayTextOk cs = true) :
    '.' ∉ cs := by
  have hdot : ('.' : Char).toNat = 46 := rfl
  rcases cs with _ | ⟨c1, _ | ⟨c2, _ | ⟨c3, t⟩⟩⟩
  · simp
  · simp only [dayTextOk, Bool.and_eq_true, decide_eq_true_eq] at h
    simp only [List.mem_singleton]
    intro he
    rw [← he] at h
    omega
  · simp only [dayTextOk, Bool.or_eq_true, Bool.and_eq_true,
      decide_eq_true_eq] at h
    intro hm
    simp only [List.mem_cons, List.not_mem_nil, or_false] at hm
    rcases hm with he | he
    · rw [← he] at h
      rcases h with (h | ⟨h1, _⟩) | h
      · omega
      · omega
      · omega
    · rw [← he] at h
      rcases h with (h | ⟨_, h2⟩) | h
      · omega
      · exact absurd h2 (by decide)
      · omega
  · simp [dayTextOk] at h

lemma mkDate_isSome_iff (y m d : Nat) :
    (mkDate y m d).isSome = true ↔ isValidDate ⟨y, m, d⟩ = true := by
  by_cases hv : isValidDate ⟨y, m, d⟩ = true <;> simp [mkDate, hv]

/-- C4 counterexample: `strptime`'s `%m`/`%d` accept one-digit components,
so `"2000.1.1"` — which is not of the exact 4-2-2 `YYYY.MM.DD` shape (it
has 8 characters, not 10) — is accepted by the Birthday constructor. -/
theorem birthday_accepts_single_digit_components :
    parse_birthday "2000.1.1" = some ⟨2000, 1, 1⟩ ∧
    ("2000.1.1" : String).length ≠ 10 := by
  constructor
  · rfl
  · decide

/-- C4 amended: Birthday construction accepts exactly the texts
`year.month.day` with literal dot separators where the year part is four
decimal digits, the month part matches `1[0-2]|0[1-9]|[1-9]` (one OR two
digits), the day part matches `3[01]|[12]\d|0[1-9]|[1-9]`, and the denoted
triple is a real calendar date; invalid calendar dates (e.g. month 13) and
wrong separators are rejected, but one-digit months and days are not. -/
theorem birthday_acceptance_characterization (s : String) :
    (parse_birthday s).isSome = true ↔
    ∃ ys ms ds : List Char, s.data = ys ++ '.' :: (ms ++ '.' :: ds) ∧
      yearOk ys = true ∧ monthTextOk ms = true ∧ dayTextOk ds = true ∧
      isValidDate ⟨valOf ys, valOf ms, valOf ds⟩ = true := by
  constructor
  · intro h
    simp only [parse_birthday] at h
    rcases hsp : splitDots s.data with _ | ⟨ys, _ | ⟨ms, _ | ⟨ds, _ | ⟨x, gs⟩⟩⟩⟩ <;>
      simp only [hsp] at h
    · simp at h
    · simp at h
    · simp at h
    · by_cases hck : (yearOk ys && monthTextOk ms && dayTextOk ds) = true
      · rw [if_pos hck] at h
        simp only [Bool.and_eq_true] at hck
        have hdata : s.data = ys ++ '.' :: (ms ++ '.' :: ds) := by
          have hj := joinDots_splitDots s.data
          rw [hsp] at hj
          simpa [joinDots] using hj.symm
        exact ⟨ys, ms, ds, hdata, hck.1.1, hck.1.2, hck.2,
          (mkDate_isSome_iff _ _ _).mp h⟩
      · rw [if_neg hck] at h
        simp at h
    · simp at h
  · rintro ⟨ys, ms, ds, hdata, hy, hm, hd, hv⟩
    have hsp : splitDots s.data = [ys, ms, ds] := by
      rw [hdata, splitDots_append _ _ (yearOk_no_dot hy),
        splitDots_append _ _ (monthTextOk_no_dot hm),
        splitDots_no_dot (dayTextOk_no_dot hd)]
    simp [parse_birthday, hsp, hy, hm, hd, mkDate, hv]

/-- C4 amended witness: `"1999.07.09"` is accepted and denotes July 9,
1999. -/
theorem birthday_acceptance_example :
    (parse_birthday "1999.07.09").isSome = true :=
  (birthday_acceptance_characterization "1999.07.09").mpr
    ⟨['1', '9', '9', '9'], ['0', '7'], ['0', '9'], by decide, by decide,
      by decide, by decide, by decide⟩

lemma ascii_bounds {c : Char} (h : isAsciiDigit c = true) :
    48 ≤ c.toNat ∧ c.toNat ≤ 57 := by
  simp only [isAsciiDigit, Bool.and_eq_true, decide_eq_true_eq] at h
  exact h

lemma ascii_isDecimal {c : Char} (h : isAsciiDigit c = true) :
    pyIsDecimalChar c = true := by
  have hb := ascii_bounds h
  simp only [pyIsDecimalChar, Bool.or_eq_true, Bool.and_eq_true,
    decide_eq_true_eq]
  omega

lemma decVal_ascii {c : Char} (h : isAsciiDigit c = true) :
    decVal c = c.toNat - 48 := by
  have hcond : (48 ≤ c.toNat && c.toNat ≤ 57) = true := h
  simp only [decVal]
  rw [if_pos hcond]

lemma digitChar_roundtrip {c : Char} (h : isAsciiDigit c = true) :
    digitChar (c.toNat - 48) = c := by
  have hb := ascii_bounds h
  have he : 48 + (c.toNat - 48) = c.toNat := by omega
  rw [digitChar, he, Char.ofNat_toNat]

lemma ascii_ne_dot {c : Char} (h : isAsciiDigit c = true) : ¬('.' = c) := by
  have hb := ascii_bounds h
  have hdot : ('.' : Char).toNat = 46 := rfl
  intro he
  rw [← he] at hb
  omega

lemma daysInMonth_le_31 (y m : Nat) : daysInMonth y m ≤ 31 := by
  by_cases h2 : m = 2
  · have := daysInMonth_feb y
    rw [h2]
    omega
  · unfold daysInMonth
    rw [if_neg h2]
    split <;> omega

/-- C8: every string of the exact shape `YYYY.MM.DD` (four ASCII digits,
dot, two ASCII digits, dot, two ASCII digits) that denotes a real calendar
date is accepted by the Birthday parser, and rendering the stored date back
with `strftime("%Y.%m.%d")` reproduces the original string — a lossless
round-trip. -/
theorem birthday_roundtrip (y1 y2 y3 y4 m1 m2 d1 d2 : Char)
    (hy1 : isAsciiDigit y1 = true) (hy2 : isAsciiDigit y2 = true)
    (hy3 : isAsciiDigit y3 = true) (hy4 : isAsciiDigit y4 = true)
    (hm1 : isAsciiDigit m1 = true) (hm2 : isAsciiDigit m2 = true)
    (hd1 : isAsciiDigit d1 = true) (hd2 : isAsciiDigit d2 = true)
    (hv : isValidDate ⟨valOf [y1, y2, y3, y4], valOf [m1, m2],
      valOf [d1, d2]⟩ = true) :
    parse_birthday ⟨[y1, y2, y3, y4, '.', m1, m2, '.', d1, d2]⟩ =
      some ⟨valOf [y1, y2, y3, y4], valOf [m1, m2], valOf [d1, d2]⟩ ∧
    formatDotted ⟨valOf [y1, y2, y3, y4], valOf [m1, m2], valOf [d1, d2]⟩ =
      ⟨[y1, y2, y3, y4, '.', m1, m2, '.', d1, d2]⟩ := by
  have by1 := ascii_bounds hy1
  have by2 := ascii_bounds hy2
  have by3 := ascii_bounds hy3
  have by4 := ascii_bounds hy4
  have bm1 := ascii_bounds hm1
  have bm2 := ascii_bounds hm2
  have bd1 := ascii_bounds hd1
  have bd2 := ascii_bounds hd2
  have hvy : valOf [y1, y2, y3, y4] = 1000 * (y1.toNat - 48) +
      100 * (y2.toNat - 48) + 10 * (y3.toNat - 48) + (y4.toNat - 48) := by
    simp only [valOf, List.foldl, decVal_ascii hy1, decVal_ascii hy2,
      decVal_ascii hy3, decVal_ascii hy4]
    ring
  have hvm : valOf [m1, m2] = 10 * (m1.toNat - 48) + (m2.toNat - 48) := by
    simp only [valOf, List.foldl, decVal_ascii hm1, decVal_ascii hm2]
    ring
  have hvd : valOf [d1, d2] = 10 * (d1.toNat - 48) + (d2.toNat - 48) := by
    simp only [valOf, List.foldl, decVal_ascii hd1, decVal_ascii hd2]
    ring
  have hvx := hv
  simp only [isValidDate, Bool.and_eq_true, decide_eq_true_eq] at hvx
  obtain ⟨⟨⟨⟨⟨q1, q2⟩, q3⟩, q4⟩, q5⟩, q6⟩ := hvx
  have hle31 : valOf [d1, d2] ≤ 31 := le_trans q6 (daysInMonth_le_31 _ _)
  have hyok : yearOk [y1, y2, y3, y4] = true := by
    simp [yearOk, ascii_isDecimal hy1, ascii_isDecimal hy2,
      ascii_isDecimal hy3, ascii_isDecimal hy4]
  have hmok : monthTextOk [m1, m2] = true := by
    rw [hvm] at q3 q4
    simp only [monthTextOk, Bool.or_eq_true, Bool.and_eq_true,
      decide_eq_true_eq]
    omega
  have hdok : dayTextOk [d1, d2] = true := by
    rw [hvd] at q5 hle31
    simp only [dayTextOk, ascii_isDecimal hd2, Bool.and_true,
      Bool.or_eq_true, Bool.and_eq_true, decide_eq_true_eq]
    omega
  have nd1 : '.' ∉ [y1, y2, y3, y4] := by
    simp only [List.mem_cons, List.not_mem_nil, or_false]
    push_neg
    exact ⟨ascii_ne_dot hy1, ascii_ne_dot hy2, ascii_ne_dot hy3,
      ascii_ne_dot hy4⟩
  have nd2 : '.' ∉ [m1, m2] := by
    simp only [List.mem_cons, List.not_mem_nil, or_false]
    push_neg
    exact ⟨ascii_ne_dot hm1, ascii_ne_dot hm2⟩
  have nd3 : '.' ∉ [d1, d2] := by
    simp only [List.mem_cons, List.not_mem_nil, or_false]
    push_neg
    exact ⟨ascii_ne_dot hd1, ascii_ne_dot hd2⟩
  have hsplit : splitDots [y1, y2, y3, y4, '.', m1, m2, '.', d1, d2] =
      [[y1, y2, y3, y4], [m1, m2], [d1, d2]] := by
    have e0 : [y1, y2, y3, y4, '.', m1, m2, '.', d1, d2] =
        [y1, y2, y3, y4] ++ '.' :: ([m1, m2] ++ '.' :: [d1, d2]) := by simp
    rw [e0, splitDots_append _ _ nd1, splitDots_append _ _ nd2,
      splitDots_no_dot nd3]
  constructor
  · simp only [parse_birthday, hsplit]
    simp [hyok, hmok, hdok, mkDate, hv]
  · have e1 : valOf [y1, y2, y3, y4] / 1000 % 10 = y1.toNat - 48 := by
      rw [hvy]; omega
    have e2 : valOf [y1, y2, y3, y4] / 100 % 10 = y2.toNat - 48 := by
      rw [hvy]; omega
    have e3 : valOf [y1, y2, y3, y4] / 10 % 10 = y3.toNat - 48 := by
      rw [hvy]; omega
    have e4 : valOf [y1, y2, y3, y4] % 10 = y4.toNat - 48 := by
      rw [hvy]; omega
    have e5 : valOf [m1, m2] / 10 % 10 = m1.toNat - 48 := by
      rw [hvm]; omega
    have e6 : valOf [m1, m2] % 10 = m2.toNat - 48 := by
      rw [hvm]; omega
    have e7 : valOf [d1, d2] / 10 % 10 = d1.toNat - 48 := by
      rw [hvd]; omega
    have e8 : valOf [d1, d2] % 10 = d2.toNat - 48 := by
      rw [hvd]; omega
    simp [formatDotted, pad4, pad2, e1, e2, e3, e4, e5, e6, e7, e8,
      digitChar_roundtrip hy1, digitChar_roundtrip hy2,
      digitChar_roundtrip hy3, digitChar_roundtrip hy4,
      digitChar_roundtrip hm1, digitChar_roundtrip hm2,
      digitChar_roundtrip hd1, digitChar_roundtrip hd2]

/-- C8 witness: `"2000.02.29"` (a leap-year date) parses and formats back
to itself. -/
theorem birthday_roundtrip_example :
    parse_birthday "2000.02.29" = some ⟨2000, 2, 29⟩ ∧
    formatDotted ⟨2000, 2, 29⟩ = "2000.02.29" := by
  have h := birthday_roundtrip '2' '0' '0' '0' '0' '2' '2' '9'
    (by decide) (by decide) (by decide) (by decide) (by decide) (by decide)
    (by decide) (by decide) (by decide)
  exact h

end TaskOne
